import Mathlib

/-!
Verification development for the `track` event-logging backend.

The repository is a TypeScript CRUD service built on Prisma over a relational
store.  We embed the repository layer (EventRepository, TagRepository,
UserRepository) and the relevant express route handlers as pure Lean functions
over an explicit database state `DB`, whose row lists are kept in insertion
order (modelling row order of the underlying tables).  Dates are modelled as
`Int` millisecond values (the code compares dates via getTime), JSON
serialization of the opaque metadata map as an injective wrapper type, and the
bcrypt comparison facility as an abstract boolean-valued parameter.  Column
defaults and constraints (@updatedAt, @unique on tag names, onDelete: Cascade,
and the junction composite primary keys) come from the Prisma schema stored in
src/.kiro/specs/event-tracking-system/requirements.md (third chunk).
-/

namespace Track

/-- The closed event type enumeration of src/backend (types/models). -/
inductive EventType
  | SIMPLE_MESSAGE
  | PHOTO_WITH_NOTES
  | EMAIL
  | TEXT
  | DOCUMENT
deriving DecidableEq, Inhabited

/-- A metadata payload: the opaque key/value map `Record<string, any>`
(values are modelled as strings). -/
abbrev Meta := List (String × String)

/-- The image of `JSON.stringify` on a metadata map.  Serialization is
modelled as an injective wrapper: `jsonStringify` wraps, `jsonParse`
unwraps, so `jsonParse (jsonStringify m) = m` holds definitionally. -/
structure JsonStr where
  val : Meta
deriving DecidableEq

/-- Model of `JSON.stringify` applied to a metadata map. -/
def jsonStringify (m : Meta) : JsonStr := ⟨m⟩

/-- Model of `JSON.parse` applied to a stored metadata column. -/
def jsonParse (s : JsonStr) : Meta := s.val

/-- A row of the User table: includes the bcrypt hash column `password`. -/
structure UserRow where
  id : String
  username : String
  email : String
  displayName : String
  password : String
  createdAt : Int
  updatedAt : Int
deriving DecidableEq

/-- A row of the Tag table. -/
structure TagRow where
  id : String
  name : String
  color : Option String
  createdAt : Int
deriving DecidableEq

/-- A row of the Event table.  `metadata` is the stored JSON column
(null or the stringified map). -/
structure EventRow where
  id : String
  title : String
  content : String
  type : EventType
  timestamp : Int
  metadata : Option JsonStr
  createdAt : Int
  updatedAt : Int
  creatorId : String
deriving DecidableEq

/-- A row of the event/user assignment junction table. -/
structure AssignmentRow where
  eventId : String
  userId : String
deriving DecidableEq

/-- A row of the event/tag junction table. -/
structure EventTagRow where
  eventId : String
  tagId : String
deriving DecidableEq

/-- A row of the Attachment table. -/
structure AttachmentRow where
  id : String
  filename : String
  originalName : String
  mimeType : String
  size : Int
  path : String
  eventId : String
  uploadedAt : Int
deriving DecidableEq

/-- The per-field change map stored by recordEditHistory: at most one
(prior, new) entry for each of the four tracked fields. -/
structure EditChanges where
  title : Option (String × String)
  content : Option (String × String)
  type : Option (EventType × EventType)
  timestamp : Option (Int × Int)
deriving DecidableEq

/-- A row of the EventEditHistory table. -/
structure HistoryRow where
  eventId : String
  changes : EditChanges
  editedBy : String
  editedAt : Int
deriving DecidableEq

/-- The public user profile (the select used throughout the repositories:
every column except the credential hash). -/
structure User where
  id : String
  username : String
  email : String
  displayName : String
  createdAt : Int
  updatedAt : Int
deriving DecidableEq

/-- The formatted Event returned by EventRepository.formatEvent.  The
relationship fields are optional in the TS interface; formatEvent always
fills them (see claim C10). -/
structure Event where
  id : String
  title : String
  content : String
  type : EventType
  timestamp : Int
  metadata : Option Meta
  createdAt : Int
  updatedAt : Int
  creatorId : String
  creator : Option User
  assignedUsers : Option (List User)
  tags : Option (List TagRow)
  attachments : Option (List AttachmentRow)
deriving DecidableEq, Inhabited

/-- The database state: each table as a list of rows in insertion order. -/
structure DB where
  users : List UserRow
  tags : List TagRow
  events : List EventRow
  assignments : List AssignmentRow
  eventTags : List EventTagRow
  attachments : List AttachmentRow
  history : List HistoryRow
deriving DecidableEq

/-- The public-profile select applied to a user row. -/
def publicUser (u : UserRow) : User :=
  { id := u.id, username := u.username, email := u.email
    displayName := u.displayName, createdAt := u.createdAt, updatedAt := u.updatedAt }

/-- The include + format step of the event queries: resolves creator,
assigned users, tags and attachments for a row and parses the metadata
column, exactly as EventRepository.formatEvent does on a row fetched with
the standard include clause. -/
def hydrate (db : DB) (r : EventRow) : Event :=
  { id := r.id, title := r.title, content := r.content, type := r.type
    timestamp := r.timestamp
    metadata := r.metadata.map jsonParse
    createdAt := r.createdAt, updatedAt := r.updatedAt, creatorId := r.creatorId
    creator := (db.users.find? (fun u => u.id == r.creatorId)).map publicUser
    assignedUsers := some (((db.assignments.filter (fun a => a.eventId == r.id)).filterMap
      (fun a => db.users.find? (fun u => u.id == a.userId))).map publicUser)
    tags := some ((db.eventTags.filter (fun et => et.eventId == r.id)).filterMap
      (fun et => db.tags.find? (fun t => t.id == et.tagId)))
    attachments := some (db.attachments.filter (fun f => f.eventId == r.id)) }

/-- The pagination envelope fields. -/
structure Pagination where
  page : Nat
  limit : Nat
  total : Nat
  totalPages : Nat
deriving DecidableEq

/-- A paginated response envelope. -/
structure PaginatedResponse where
  data : List Event
  pagination : Pagination
deriving DecidableEq

/-- The comparator realizing the `orderBy timestamp desc` clause.  The
store's ordering is modelled by a stable sort with this relation: rows with
equal keys stay in table order. -/
def tsDesc (a b : EventRow) : Prop := b.timestamp ≤ a.timestamp

instance : DecidableRel tsDesc :=
  fun a b => inferInstanceAs (Decidable (b.timestamp ≤ a.timestamp))

instance : IsTotal EventRow tsDesc :=
  ⟨fun a b => le_total b.timestamp a.timestamp⟩

instance : IsTrans EventRow tsDesc :=
  ⟨fun _ _ _ h1 h2 => le_trans h2 h1⟩

/-- Model of `Math.ceil(total / limit)` on naturals (for `limit ≥ 1` this
integer form agrees with the float computation in the source). -/
def mathCeil (total limit : Nat) : Nat := (total + limit - 1) / limit

/-- EventRepository.findAll: skip `(page - 1) * limit` events in timestamp
descending order, take `limit`, hydrate, and report the count envelope. -/
def findAll (db : DB) (page : Nat := 1) (limit : Nat := 20) : PaginatedResponse :=
  let sorted := List.insertionSort tsDesc db.events
  { data := ((sorted.drop ((page - 1) * limit)).take limit).map (hydrate db)
    pagination :=
      { page := page, limit := limit, total := db.events.length
        totalPages := mathCeil db.events.length limit } }

/-- EventRepository.findById. -/
def findById (db : DB) (id : String) : Option Event :=
  (db.events.find? (fun r => r.id == id)).map (hydrate db)

/-- EventRepository.findByCreator: same shape as findAll restricted to the
rows of one creator. -/
def findByCreator (db : DB) (creatorId : String) (page : Nat := 1) (limit : Nat := 20) :
    PaginatedResponse :=
  let rows := db.events.filter (fun r => r.creatorId == creatorId)
  let sorted := List.insertionSort tsDesc rows
  { data := ((sorted.drop ((page - 1) * limit)).take limit).map (hydrate db)
    pagination :=
      { page := page, limit := limit, total := rows.length
        totalPages := mathCeil rows.length limit } }

/-- EventRepository.findByDateRange: timestamp between startDate and endDate
inclusive, otherwise the same shape as findAll. -/
def findByDateRange (db : DB) (startDate endDate : Int) (page : Nat := 1) (limit : Nat := 20) :
    PaginatedResponse :=
  let rows := db.events.filter (fun r => startDate ≤ r.timestamp && r.timestamp ≤ endDate)
  let sorted := List.insertionSort tsDesc rows
  { data := ((sorted.drop ((page - 1) * limit)).take limit).map (hydrate db)
    pagination :=
      { page := page, limit := limit, total := rows.length
        totalPages := mathCeil rows.length limit } }

/-- The create-event request body (types/models CreateEventRequest), after
route-level zod validation and date parsing. -/
structure CreateEventRequest where
  title : String
  content : String
  type : EventType
  timestamp : Option Int
  metadata : Option Meta
  assignedUserIds : Option (List String)
  tagIds : Option (List String)
deriving DecidableEq

/-- The update-event request body (types/models UpdateEventRequest): every
field optional; an absent field means no change. -/
structure UpdateEventRequest where
  title : Option String
  content : Option String
  type : Option EventType
  timestamp : Option Int
  metadata : Option Meta
  assignedUserIds : Option (List String)
  tagIds : Option (List String)
deriving DecidableEq

/-- UserRepository.exists: count of user rows with the id is positive. -/
def userExists (db : DB) (id : String) : Bool :=
  db.users.any (fun u => u.id == id)

/-- TagRepository.exists: count of tag rows with the id is positive. -/
def tagExists (db : DB) (id : String) : Bool :=
  db.tags.any (fun t => t.id == id)

/-- EventRepository.create: inserts the event row (timestamp defaulting to
the current time, metadata stringified, createdAt and updatedAt set to the
current time as prescribed by the schema defaults) together with its
assignment and tag junction rows, then returns the hydrated event.  `now`
is the current instant and `newId` the id generated by the store.  This
definition gives the inserted row. -/
def newEventRow (req : CreateEventRequest) (creatorId : String)
    (now : Int) (newId : String) : EventRow :=
  { id := newId, title := req.title, content := req.content, type := req.type
    timestamp := req.timestamp.getD now
    metadata := req.metadata.map jsonStringify
    createdAt := now, updatedAt := now, creatorId := creatorId }

/-- The storage constraints a nested junction-row write is checked against,
per the Prisma schema (src/.kiro/specs/event-tracking-system/requirements.md,
third chunk): every userId and tagId must exist (the relation foreign keys of
event_user_assignments and event_tags), and no id may occur twice in a
supplied list (the composite primary keys @@id([eventId, userId]) and
@@id([eventId, tagId]) reject the second identical row). -/
def writeRefsOk (db : DB) (userIds tagIds : Option (List String)) : Prop :=
  (∀ u ∈ userIds.getD [], userExists db u) ∧
  (∀ t ∈ tagIds.getD [], tagExists db t) ∧
  (userIds.getD []).Nodup ∧ (tagIds.getD []).Nodup

instance (db : DB) (userIds tagIds : Option (List String)) :
    Decidable (writeRefsOk db userIds tagIds) :=
  inferInstanceAs (Decidable ((∀ u ∈ userIds.getD [], userExists db u) ∧
    (∀ t ∈ tagIds.getD [], tagExists db t) ∧
    (userIds.getD []).Nodup ∧ (tagIds.getD []).Nodup))

/-- EventRepository.create continued: the store after the nested create.
The nested write is one atomic query; when a junction row violates a
foreign key or a composite primary key (see `writeRefsOk`) the whole create
throws and nothing is stored, modelled by the none result with the store
unchanged. -/
def createEvent (db : DB) (req : CreateEventRequest) (creatorId : String)
    (now : Int) (newId : String) : DB × Option Event :=
  if writeRefsOk db req.assignedUserIds req.tagIds then
    let row := newEventRow req creatorId now newId
    let db' : DB :=
      { db with
        events := db.events ++ [row]
        assignments := db.assignments ++
          (req.assignedUserIds.getD []).map (fun u => { eventId := newId, userId := u })
        eventTags := db.eventTags ++
          (req.tagIds.getD []).map (fun t => { eventId := newId, tagId := t }) }
    (db', some (hydrate db' row))
  else (db, none)

/-- The field part of EventRepository.update applied to one row: each of
title, content, type, timestamp and metadata is overwritten exactly when the
request supplies it; updatedAt is set to the current time, the @updatedAt
column behavior of the Event model in the Prisma schema
(src/.kiro/specs/event-tracking-system/requirements.md, third chunk). -/
def applyUpdateFields (r : EventRow) (req : UpdateEventRequest) (now : Int) : EventRow :=
  { r with
    title := req.title.getD r.title
    content := req.content.getD r.content
    type := req.type.getD r.type
    timestamp := req.timestamp.getD r.timestamp
    metadata := match req.metadata with
      | none => r.metadata
      | some m => some (jsonStringify m)
    updatedAt := now }

/-- The diff step of EventRepository.recordEditHistory: compares the four
tracked fields of the prior and new event (dates via getTime). -/
def diffChanges (oldR newR : EventRow) : EditChanges :=
  { title := if oldR.title ≠ newR.title then some (oldR.title, newR.title) else none
    content := if oldR.content ≠ newR.content then some (oldR.content, newR.content) else none
    type := if oldR.type ≠ newR.type then some (oldR.type, newR.type) else none
    timestamp := if oldR.timestamp ≠ newR.timestamp
      then some (oldR.timestamp, newR.timestamp) else none }

/-- `Object.keys(changes).length > 0` on the change map. -/
def hasChanges (c : EditChanges) : Bool :=
  c.title.isSome || c.content.isSome || c.type.isSome || c.timestamp.isSome

/-- EventRepository.update: returns none when the event is not found;
otherwise applies the field updates to the row, fully replaces the
assignment and tag junction rows of the event when the corresponding
request field is present (deleteMany followed by create), appends one edit
history row when any tracked field changed, and returns the updated
hydrated event.  The whole update is one atomic query: when a created
junction row violates a foreign key or a composite primary key (a
duplicated id in a supplied list, see `writeRefsOk`) prisma throws, the
repository catch returns null and nothing is committed, no history row
included. -/
def updateEvent (db : DB) (id : String) (req : UpdateEventRequest)
    (editorId : String) (now : Int) : DB × Option Event :=
  match db.events.find? (fun r => r.id == id) with
  | none => (db, none)
  | some old =>
    if writeRefsOk db req.assignedUserIds req.tagIds then
    let newRow := applyUpdateFields old req now
    let events' := db.events.map (fun r => if r.id == id then applyUpdateFields r req now else r)
    let assignments' := match req.assignedUserIds with
      | none => db.assignments
      | some us => db.assignments.filter (fun a => a.eventId != id) ++
          us.map (fun u => { eventId := id, userId := u })
    let eventTags' := match req.tagIds with
      | none => db.eventTags
      | some ts => db.eventTags.filter (fun et => et.eventId != id) ++
          ts.map (fun t => { eventId := id, tagId := t })
    let changes := diffChanges old newRow
    let history' := if hasChanges changes
      then db.history ++ [{ eventId := id, changes := changes, editedBy := editorId, editedAt := now }]
      else db.history
    let db' : DB := { db with
      events := events', assignments := assignments'
      eventTags := eventTags', history := history' }
    (db', some (hydrate db' newRow))
    else (db, none)

/-- EventRepository.delete: prisma delete wrapped in try/catch returning a
boolean; false both when the row is absent and when the storage layer
rejects the deletion (the `accepted` flag models the latter).  The removal
cascades to the assignment, tag-junction, attachment and history rows of
the event: every one of those relations carries onDelete: Cascade in the
Prisma schema (src/.kiro/specs/event-tracking-system/requirements.md,
third chunk). -/
def eventDelete (db : DB) (id : String) (accepted : Bool) : DB × Bool :=
  if (db.events.find? (fun r => r.id == id)).isSome then
    if accepted then
      ({ db with
          events := db.events.filter (fun r => r.id != id)
          assignments := db.assignments.filter (fun a => a.eventId != id)
          eventTags := db.eventTags.filter (fun et => et.eventId != id)
          attachments := db.attachments.filter (fun f => f.eventId != id)
          history := db.history.filter (fun h => h.eventId != id) }, true)
    else (db, false)
  else (db, false)

/-- UserRepository.verifyPassword: looks the user up by email (including the
hash column), compares the password through the bcrypt facility (passed as
the abstract `compare` capability), and returns the profile without the hash
on success and null on any mismatch. -/
def verifyPassword (compare : String → String → Bool) (db : DB)
    (email password : String) : Option User :=
  match db.users.find? (fun u => u.email == email) with
  | none => none
  | some u => if compare password u.password then some (publicUser u) else none

/-- The fixed 10-color palette of TagRepository.getRandomColor. -/
def tagPalette : List String :=
  ["#3B82F6", "#EF4444", "#10B981", "#F59E0B", "#8B5CF6",
   "#EC4899", "#06B6D4", "#84CC16", "#F97316", "#6366F1"]

/-- TagRepository.getRandomColor: a uniformly chosen palette entry; the
random draw is modelled by the `r` parameter, reduced to a palette index. -/
def getRandomColor (r : Nat) : String :=
  tagPalette.getD (r % 10) "#3B82F6"

/-- The create loop of TagRepository.createMultiple: creates one tag per
pending name with a fresh id and a random color, failing when a name
collides with an already stored tag: the Tag model declares name String
@unique in the Prisma schema
(src/.kiro/specs/event-tracking-system/requirements.md, third chunk).  On a
constraint violation the tags created before the violating one remain
stored (the source issues the creates without a surrounding transaction). -/
def createNewTags (db : DB) (names : List String) (ids : Nat → String)
    (rand : Nat → Nat) (now : Int) (k : Nat) : DB × Except Unit (List TagRow) :=
  match names with
  | [] => (db, .ok [])
  | n :: rest =>
    if db.tags.any (fun t => t.name == n) then (db, .error ()) else
      let t : TagRow := { id := ids k, name := n, color := some (getRandomColor (rand k)), createdAt := now }
      let res := createNewTags { db with tags := db.tags ++ [t] } rest ids rand now (k + 1)
      (res.1, res.2.map (fun ts => t :: ts))

/-- TagRepository.createMultiple: returns the stored tags matching the given
names, creating the missing ones with random palette colors.  `ids` supplies
the generated ids of new tags and `rand` the random color draws.  This
definition gives its findByNames step. -/
def existingTagsOf (db : DB) (names : List String) : List TagRow :=
  db.tags.filter (fun t => names.contains t.name)

/-- The names of the batch, filtered down to those not already stored
(the newTagNames list of the source). -/
def newNamesOf (db : DB) (names : List String) : List String :=
  names.filter (fun n => !(((existingTagsOf db names).map (fun t => t.name)).contains n))

/-- TagRepository.createMultiple continued. -/
def createMultiple (db : DB) (names : List String) (ids : Nat → String)
    (rand : Nat → Nat) (now : Int) : DB × Except Unit (List TagRow) :=
  let existingTags := existingTagsOf db names
  let newTagNames := newNamesOf db names
  if newTagNames.isEmpty then (db, .ok existingTags)
  else
    let res := createNewTags db newTagNames ids rand now 0
    (res.1, res.2.map (fun ts => existingTags ++ ts))

/-- The event-association count of a tag. -/
def tagEventCount (db : DB) (t : TagRow) : Nat :=
  (db.eventTags.filter (fun et => et.tagId == t.id)).length

/-- The comparator realizing the `orderBy events count desc` clause of
getPopularTags. -/
def countDesc (a b : TagRow × Nat) : Prop := b.2 ≤ a.2

instance : DecidableRel countDesc :=
  fun a b => inferInstanceAs (Decidable (b.2 ≤ a.2))

instance : IsTotal (TagRow × Nat) countDesc :=
  ⟨fun a b => le_total b.2 a.2⟩

instance : IsTrans (TagRow × Nat) countDesc :=
  ⟨fun _ _ _ h1 h2 => le_trans h2 h1⟩

/-- TagRepository.getPopularTags: tags with their association counts,
ordered by descending count only (the stable sort keeps ties in stored
order), truncated to `limit`. -/
def getPopularTags (db : DB) (limit : Nat := 10) : List (TagRow × Nat) :=
  (List.insertionSort countDesc (db.tags.map (fun t => (t, tagEventCount db t)))).take limit

/-! Concrete fixture states used by witnesses and counterexamples. -/

/-- A one-user, one-tag, one-event fixture. -/
def dbW : DB :=
  { users := [⟨"u1", "alice", "a@x", "Alice", "H1", 0, 0⟩]
    tags := [⟨"t1", "alpha", some "#3B82F6", 0⟩]
    events := [⟨"e1", "T", "C", .EMAIL, 5, none, 0, 0, "u1"⟩]
    assignments := [], eventTags := [⟨"e1", "t1"⟩], attachments := [], history := [] }

/-- The stored event row of the fixture. -/
def evRow0 : EventRow := ⟨"e1", "T", "C", .EMAIL, 5, none, 0, 0, "u1"⟩

/-- An update request that renames the event and clears its tag set. -/
def reqT : UpdateEventRequest := ⟨some "T2", none, none, none, none, none, some []⟩

/-! Claim C9: Event Store delete returns false when the event is absent or
the storage layer rejects the deletion, true when the event existed and was
removed.  `eventDelete` is a total function into `DB × Bool`, so no
exception reaches the caller. -/

/-- C9: delete(id) returns false when no event with the id exists (leaving
the store untouched) and false when the storage layer rejects the deletion;
it returns true exactly when the event existed and the deletion was
accepted, in which case the event row is gone. -/
theorem C9_delete_returns_bool (db : DB) (id : String) (accepted : Bool) :
    (db.events.find? (fun r => r.id == id) = none →
      eventDelete db id accepted = (db, false)) ∧
    (accepted = false → (eventDelete db id accepted).2 = false) ∧
    ((db.events.find? (fun r => r.id == id)).isSome → accepted = true →
      (eventDelete db id accepted).2 = true ∧
      (eventDelete db id accepted).1.events.find? (fun r => r.id == id) = none) := by
  refine ⟨fun h => ?_, fun h => ?_, fun h1 h2 => ?_⟩
  · simp [eventDelete, h]
  · subst h
    unfold eventDelete
    split <;> simp
  · subst h2
    refine ⟨by simp [eventDelete, h1], ?_⟩
    simp only [eventDelete, h1, if_pos, if_true]
    rw [List.find?_eq_none]
    intro r hr
    rcases List.mem_filter.mp hr with ⟨-, hne⟩
    simpa using hne

/-- Witness for C9 on the fixture store. -/
theorem C9_delete_returns_bool_witness :
    (eventDelete dbW "e1" true).2 = true ∧
    (eventDelete dbW "e1" true).1.events.find? (fun r => r.id == "e1") = none :=
  (C9_delete_returns_bool dbW "e1" true).2.2 (by decide) rfl

/-! Claim C7: verify-credential returns the public profile exactly on an
email hit with a matching credential and null otherwise, with both failure
causes yielding the identical null. -/

/-- The two failure causes of verify-credential: unknown email, or a stored
user whose hash does not match. -/
def authFails (compare : String → String → Bool) (db : DB) (email password : String) : Prop :=
  db.users.find? (fun u => u.email == email) = none ∨
  ∃ u, db.users.find? (fun u2 => u2.email == email) = some u ∧
    compare password u.password = false

/-- Any failing credential check returns none. -/
theorem verifyPassword_eq_none_of_authFails (compare : String → String → Bool)
    (db : DB) (email password : String)
    (h : authFails compare db email password) :
    verifyPassword compare db email password = none := by
  rcases h with h | ⟨u, hu, hcmp⟩
  · simp [verifyPassword, h]
  · simp [verifyPassword, hu, hcmp]

/-- C7: verify-credential returns some public profile exactly when a user
with the email exists and the password matches its stored hash, and both
failure causes produce the identical result, so they are indistinguishable
to the caller. -/
theorem C7_verify_credential (compare : String → String → Bool) (db : DB)
    (email password : String) :
    (∀ res, verifyPassword compare db email password = some res ↔
      ∃ u, db.users.find? (fun u2 => u2.email == email) = some u ∧
        compare password u.password = true ∧ res = publicUser u) ∧
    (∀ email2 password2, authFails compare db email password →
      authFails compare db email2 password2 →
      verifyPassword compare db email password =
        verifyPassword compare db email2 password2) := by
  constructor
  · intro res
    constructor
    · intro h
      cases hf : db.users.find? (fun u2 => u2.email == email) with
      | none => simp [verifyPassword, hf] at h
      | some u =>
        refine ⟨u, rfl, ?_⟩
        by_cases hc : compare password u.password = true
        · refine ⟨hc, ?_⟩
          simp [verifyPassword, hf, hc] at h
          exact h.symm
        · simp [verifyPassword, hf, Bool.eq_false_iff.mpr hc] at h
    · rintro ⟨u, hu, hcmp, rfl⟩
      simp [verifyPassword, hu, hcmp]
  · intro email2 password2 h1 h2
    rw [verifyPassword_eq_none_of_authFails compare db email password h1,
      verifyPassword_eq_none_of_authFails compare db email2 password2 h2]

/-- Witness for C7: an unknown email and a wrong password against the
fixture store are answered identically. -/
theorem C7_verify_credential_witness :
    verifyPassword (fun p h => p == h) dbW "nobody@x" "H1" =
      verifyPassword (fun p h => p == h) dbW "a@x" "wrong" :=
  (C7_verify_credential (fun p h => p == h) dbW "nobody@x" "H1").2 "a@x" "wrong"
    (Or.inl rfl)
    (Or.inr ⟨⟨"u1", "alice", "a@x", "Alice", "H1", 0, 0⟩, rfl, rfl⟩)

/-! Claim C2: presence of tagIds (resp. assignedUserIds) in an update fully
replaces the association set of the event; absence leaves it untouched. -/

/-- The tag ids currently associated with an event, in junction-row order. -/
def eventTagIds (db : DB) (id : String) : List String :=
  (db.eventTags.filter (fun et => et.eventId == id)).map (fun et => et.tagId)

/-- The user ids currently assigned to an event, in junction-row order. -/
def eventAssignedUserIds (db : DB) (id : String) : List String :=
  (db.assignments.filter (fun a => a.eventId == id)).map (fun a => a.userId)

/-- Rows kept by a deleteMany of the event's rows contribute nothing to a
later filter for the same event. -/
theorem filter_eventId_of_filter_bne {α : Type} (f : α → String) (id : String) :
    ∀ X : List α,
      (X.filter (fun x => f x != id)).filter (fun x => f x == id) = [] := by
  intro X
  induction X with
  | nil => rfl
  | cons a t ih =>
    by_cases h : f a = id
    · simp [List.filter_cons, h, ih]
    · simp [List.filter_cons, h, ih]

/-- The fixture store with a second, unused tag. -/
def dbW2 : DB := { dbW with tags := dbW.tags ++ [⟨"t2", "beta", none, 0⟩] }

/-- An update that only supplies the tag list ["t2", "t2"], repeating one
existing tag id. -/
def reqDup2 : UpdateEventRequest := ⟨none, none, none, none, none, none, some ["t2", "t2"]⟩

/-- Counterexample to C2: the update supplying tagIds = ["t2", "t2"] (a
set different from the event's current tag set {t1}) does not replace the
tag set: the repeated id collides on the event_tags composite primary key,
prisma.event.update throws, the repository returns null and the tag set
stays {t1}. -/
theorem C2_counterexample_duplicate_tagIds :
    (updateEvent dbW2 "e1" reqDup2 "u1" 9).2 = none ∧
    eventTagIds (updateEvent dbW2 "e1" reqDup2 "u1" 9).1 "e1" = ["t1"] ∧
    ¬ "t2" ∈ eventTagIds (updateEvent dbW2 "e1" reqDup2 "u1" 9).1 "e1" := by
  refine ⟨by decide, by decide, by decide⟩

/-- C2 amended: for an update whose supplied association id lists name
existing rows and repeat no id, presence of `tagIds` replaces the event's
tag set with exactly the supplied list (the empty list clears it) and
absence leaves the tag set unchanged; the same holds for
`assignedUserIds` and the assigned-user set.  (A list with a repeated or
unknown id instead fails the whole update against the junction-table keys,
leaving both association sets unchanged.) -/
theorem C2_associations_replaced (db : DB) (id : String) (req : UpdateEventRequest)
    (editorId : String) (now : Int) (old : EventRow)
    (h : db.events.find? (fun r => r.id == id) = some old)
    (hok : writeRefsOk db req.assignedUserIds req.tagIds) :
    (∀ l, req.tagIds = some l →
      eventTagIds (updateEvent db id req editorId now).1 id = l) ∧
    (req.tagIds = none →
      eventTagIds (updateEvent db id req editorId now).1 id = eventTagIds db id) ∧
    (∀ l, req.assignedUserIds = some l →
      eventAssignedUserIds (updateEvent db id req editorId now).1 id = l) ∧
    (req.assignedUserIds = none →
      eventAssignedUserIds (updateEvent db id req editorId now).1 id =
        eventAssignedUserIds db id) := by
  refine ⟨fun l hl => ?_, fun hl => ?_, fun l hl => ?_, fun hl => ?_⟩
  · simp only [updateEvent, h]
    rw [if_pos hok]
    simp only [eventTagIds, hl, List.filter_append,
      filter_eventId_of_filter_bne EventTagRow.eventId id, List.nil_append,
      List.filter_map]
    have h1 : ((fun et => et.eventId == id) ∘ fun t => EventTagRow.mk id t) = fun _ => true := by
      funext t; simp
    have h2 : ((fun et => EventTagRow.tagId et) ∘ fun t => EventTagRow.mk id t) = fun t => t := rfl
    rw [h1, List.filter_true, List.map_map, h2]
    exact List.map_id l
  · simp only [updateEvent, h]
    rw [if_pos hok]
    simp only [eventTagIds, hl]
  · simp only [updateEvent, h]
    rw [if_pos hok]
    simp only [eventAssignedUserIds, hl, List.filter_append,
      filter_eventId_of_filter_bne AssignmentRow.eventId id, List.nil_append,
      List.filter_map]
    have h1 : ((fun a => a.eventId == id) ∘ fun u => AssignmentRow.mk id u) = fun _ => true := by
      funext u; simp
    have h2 : ((fun a => AssignmentRow.userId a) ∘ fun u => AssignmentRow.mk id u) = fun u => u := rfl
    rw [h1, List.filter_true, List.map_map, h2]
    exact List.map_id l
  · simp only [updateEvent, h]
    rw [if_pos hok]
    simp only [eventAssignedUserIds, hl]

/-- Witness for C2: clearing the tag set of the fixture event with
`tagIds := []` while omitting assignedUserIds. -/
theorem C2_associations_replaced_witness :
    eventTagIds (updateEvent dbW "e1" reqT "u1" 9).1 "e1" = [] ∧
    eventAssignedUserIds (updateEvent dbW "e1" reqT "u1" 9).1 "e1" =
      eventAssignedUserIds dbW "e1" :=
  ⟨(C2_associations_replaced dbW "e1" reqT "u1" 9 evRow0 rfl (by decide)).1 [] rfl,
   (C2_associations_replaced dbW "e1" reqT "u1" 9 evRow0 rfl (by decide)).2.2.2 rfl⟩

/-! Claim C3: creatorId and the original createdAt survive every update;
updatedAt moves to the mutation instant on every update. -/

/-- The identity, ownership and creation-time projection of an event row. -/
def eventOrigin (r : EventRow) : String × String × Int := (r.id, r.creatorId, r.createdAt)

/-- A sequence of update operations (request, editor, instant) applied to
one event id. -/
def applyUpdates (db : DB) (id : String) (us : List (UpdateEventRequest × String × Int)) : DB :=
  us.foldl (fun d u => (updateEvent d id u.1 u.2.1 u.2.2).1) db

/-- A single update never moves the id, creatorId or createdAt column of
any row of the event table. -/
theorem updateEvent_origin (db : DB) (id : String) (req : UpdateEventRequest)
    (editorId : String) (now : Int) :
    (updateEvent db id req editorId now).1.events.map eventOrigin =
      db.events.map eventOrigin := by
  cases hf : db.events.find? (fun r => r.id == id) with
  | none => simp [updateEvent, hf]
  | some old =>
    simp only [updateEvent, hf]
    split
    · simp only [List.map_map]
      refine List.map_congr_left ?_
      intro r _
      by_cases h : r.id = id <;> simp [h, applyUpdateFields, eventOrigin]
    · rfl

/-- C3: an event the create operation returns carries `creatorId = cid` and
`createdAt = now`; the id, creatorId and createdAt columns of the event
table are invariant under any sequence of updates; a successful update
stamps the returned event with `updatedAt = now`, which differs from the
prior value whenever the instants differ. -/
theorem C3_creator_createdAt_immutable :
    (∀ (db : DB) (req : CreateEventRequest) (cid : String) (now : Int) (nid : String)
        (e : Event), (createEvent db req cid now nid).2 = some e →
      e.creatorId = cid ∧ e.createdAt = now) ∧
    (∀ (db : DB) (id : String) (us : List (UpdateEventRequest × String × Int)),
      (applyUpdates db id us).events.map eventOrigin = db.events.map eventOrigin) ∧
    (∀ (db : DB) (id : String) (req : UpdateEventRequest) (ed : String) (now : Int)
        (e : Event), (updateEvent db id req ed now).2 = some e → e.updatedAt = now) ∧
    (∀ (db : DB) (id : String) (req : UpdateEventRequest) (ed : String) (now : Int)
        (old : EventRow) (e : Event),
      db.events.find? (fun r => r.id == id) = some old →
      (updateEvent db id req ed now).2 = some e →
      now ≠ old.updatedAt → e.updatedAt ≠ old.updatedAt) := by
  refine ⟨?_, fun db id us => ?_, ?_, ?_⟩
  · intro db req cid now nid e he
    simp only [createEvent] at he
    split at he
    · simp only [Option.some_inj] at he
      subst he
      exact ⟨rfl, rfl⟩
    · simp at he
  · induction us generalizing db with
    | nil => rfl
    | cons u rest ih =>
      calc (applyUpdates db id (u :: rest)).events.map eventOrigin
          = (applyUpdates (updateEvent db id u.1 u.2.1 u.2.2).1 id rest).events.map eventOrigin := rfl
        _ = (updateEvent db id u.1 u.2.1 u.2.2).1.events.map eventOrigin := ih _
        _ = db.events.map eventOrigin := updateEvent_origin db id u.1 u.2.1 u.2.2
  · intro db id req ed now e he
    cases hf : db.events.find? (fun r => r.id == id) with
    | none => simp [updateEvent, hf] at he
    | some old =>
      simp only [updateEvent, hf] at he
      split at he
      · simp only [Option.some_inj] at he
        subst he
        rfl
      · simp at he
  · intro db id req ed now old e hf he hne
    cases hf2 : db.events.find? (fun r => r.id == id) with
    | none => rw [hf2] at hf; exact absurd hf (by simp)
    | some old2 =>
      rw [hf2] at hf
      cases hf
      simp only [updateEvent, hf2] at he
      split at he
      · simp only [Option.some_inj] at he
        subst he
        simpa [hydrate, applyUpdateFields] using hne
      · simp at he

/-- Witness for C3 on the fixture store: creation stamps the creator,
one update keeps the origin projection and stamps updatedAt. -/
theorem C3_creator_createdAt_immutable_witness :
    (((createEvent dbW ⟨"T", "C", .EMAIL, none, none, none, none⟩ "u1" 7 "e2").2.getD
      default).creatorId = "u1") ∧
    ((applyUpdates dbW "e1" [(reqT, "u1", 9)]).events.map eventOrigin =
      dbW.events.map eventOrigin) ∧
    ((updateEvent dbW "e1" reqT "u1" 9).2.getD default).updatedAt ≠ evRow0.updatedAt :=
  ⟨(C3_creator_createdAt_immutable.1 dbW ⟨"T", "C", .EMAIL, none, none, none, none⟩ "u1" 7 "e2"
      ((createEvent dbW ⟨"T", "C", .EMAIL, none, none, none, none⟩ "u1" 7 "e2").2.getD default)
      rfl).1,
   C3_creator_createdAt_immutable.2.1 dbW "e1" [(reqT, "u1", 9)],
   C3_creator_createdAt_immutable.2.2.2 dbW "e1" reqT "u1" 9 evRow0
     ((updateEvent dbW "e1" reqT "u1" 9).2.getD default) rfl rfl (by decide)⟩

/-! Claim C1: an update that changes any of title, content, type or
timestamp appends exactly one edit-history row whose change map has one
(prior, new) entry per changed field and none for unchanged fields; an
update changing none of the four appends nothing. -/

/-- The change map an update request induces against the current row:
an entry for a tracked field exactly when the request supplies a value
different from the stored one. -/
def requestDiff (req : UpdateEventRequest) (old : EventRow) : EditChanges :=
  { title := match req.title with
      | some v => if old.title ≠ v then some (old.title, v) else none
      | none => none
    content := match req.content with
      | some v => if old.content ≠ v then some (old.content, v) else none
      | none => none
    type := match req.type with
      | some v => if old.type ≠ v then some (old.type, v) else none
      | none => none
    timestamp := match req.timestamp with
      | some v => if old.timestamp ≠ v then some (old.timestamp, v) else none
      | none => none }

/-- Whether the request changes any tracked field of the current row. -/
def reqChangesTracked (req : UpdateEventRequest) (old : EventRow) : Bool :=
  (match req.title with | some v => old.title != v | none => false) ||
  (match req.content with | some v => old.content != v | none => false) ||
  (match req.type with | some v => old.type != v | none => false) ||
  (match req.timestamp with | some v => old.timestamp != v | none => false)

/-- The diff recorded by the repository against the row after the field
update is exactly the request-level change map. -/
theorem diffChanges_applyUpdateFields (old : EventRow) (req : UpdateEventRequest) (now : Int) :
    diffChanges old (applyUpdateFields old req now) = requestDiff req old := by
  unfold diffChanges applyUpdateFields requestDiff
  cases req.title <;> cases req.content <;> cases req.type <;> cases req.timestamp <;> simp

/-- The boolean test of a decidable equality is the boolean equality. -/
theorem decide_eq_beq {α : Type} [DecidableEq α] (a b : α) :
    decide (a = b) = (a == b) := by
  by_cases h : a = b <;> simp [h]

/-- The emptiness test of the recorded change map agrees with the
request-level change test. -/
theorem hasChanges_requestDiff (req : UpdateEventRequest) (old : EventRow) :
    hasChanges (requestDiff req old) = reqChangesTracked req old := by
  unfold hasChanges requestDiff reqChangesTracked
  cases req.title <;> cases req.content <;> cases req.type <;> cases req.timestamp <;>
    simp [apply_ite Option.isSome, decide_eq_beq, bne, Bool.not_not]

/-- An update that renames the fixture event and repeats one existing tag
id in its tag list. -/
def reqDup : UpdateEventRequest := ⟨some "T2", none, none, none, none, none, some ["t1", "t1"]⟩

/-- Counterexample to C1: this update changes the title of the fixture
event, yet no history row is appended: the repeated tag id collides on the
event_tags composite primary key, prisma.event.update throws, the
repository catch returns null and nothing is committed. -/
theorem C1_counterexample_duplicate_tagIds :
    reqChangesTracked reqDup evRow0 = true ∧
    (updateEvent dbW "e1" reqDup "u1" 9).2 = none ∧
    (updateEvent dbW "e1" reqDup "u1" 9).1.history = dbW.history := by
  refine ⟨rfl, by decide, by decide⟩

/-- C1 amended: for an update whose supplied association id lists name
existing rows and repeat no id, a change of any tracked field appends
exactly one history row, carrying one (prior, new) entry per changed field
and none for unchanged fields; when no tracked field changes (for example
a pure association replacement) no history row is appended.  (An update
with a repeated or unknown id in a supplied list fails entirely and
appends nothing, whether or not tracked fields changed.) -/
theorem C1_edit_history (db : DB) (id : String) (req : UpdateEventRequest)
    (editorId : String) (now : Int) (old : EventRow)
    (h : db.events.find? (fun r => r.id == id) = some old)
    (hok : writeRefsOk db req.assignedUserIds req.tagIds) :
    (reqChangesTracked req old = true →
      (updateEvent db id req editorId now).1.history =
        db.history ++ [{ eventId := id, changes := requestDiff req old,
                         editedBy := editorId, editedAt := now }]) ∧
    (reqChangesTracked req old = false →
      (updateEvent db id req editorId now).1.history = db.history) := by
  have hd := diffChanges_applyUpdateFields old req now
  have hh := hasChanges_requestDiff req old
  constructor <;> intro hc
  · simp only [updateEvent, h]
    rw [if_pos hok]
    simp only [hd, hh, hc, if_true]
  · simp only [updateEvent, h]
    rw [if_pos hok]
    simp only [hd, hh, hc, Bool.false_eq_true, if_false]

/-- Witness for C1: renaming the fixture event appends one history row
with a title entry only. -/
theorem C1_edit_history_witness :
    (updateEvent dbW "e1" reqT "u1" 9).1.history =
      dbW.history ++ [{ eventId := "e1", changes := requestDiff reqT evRow0,
                        editedBy := "u1", editedAt := 9 }] :=
  (C1_edit_history dbW "e1" reqT "u1" 9 evRow0 rfl (by decide)).1 (by decide)

/-! Claim C4: creating an event with any unknown assigned-user id or tag id
fails with an invalid-reference error before any write; with all references
valid it succeeds and returns the hydrated event. -/

/-- An event row with timestamp `i + 1` and id `toString (i + 1)`. -/
def mkEv (i : Nat) : EventRow :=
  { id := toString (i + 1), title := "t", content := "c", type := .SIMPLE_MESSAGE
    timestamp := (i + 1 : Int), metadata := none, createdAt := 0, updatedAt := 0
    creatorId := "u1" }

/-- A store holding 25 events with distinct timestamps 1..25. -/
def db25 : DB :=
  { users := [], tags := [], events := (List.range 25).map mkEv
    assignments := [], eventTags := [], attachments := [], history := [] }

/-- C5: findAll reports the stored event count, the page and limit echoed
back, totalPages as the ceiling of total over limit, and as data the page
slice (skip (page - 1) * limit, take limit) of the events in timestamp
descending order, hence at most limit items, pairwise descending; over the
25-event fixture, page 2 with limit 10 yields totalPages 3 and exactly the
events with timestamps 15 down to 6. -/
theorem C5_findAll_envelope (db : DB) (page limit : Nat)
    (hp : 1 ≤ page) (hl : 1 ≤ limit) :
    (findAll db page limit).pagination.page = page ∧
    (findAll db page limit).pagination.limit = limit ∧
    (findAll db page limit).pagination.total = db.events.length ∧
    (findAll db page limit).pagination.totalPages = db.events.length ⌈/⌉ limit ∧
    (findAll db page limit).data.length ≤ limit ∧
    (findAll db page limit).data =
      (((List.insertionSort tsDesc db.events).drop ((page - 1) * limit)).take limit).map
        (hydrate db) ∧
    (findAll db page limit).data.Pairwise (fun a b => b.timestamp ≤ a.timestamp) ∧
    (findAll db25 2 10).pagination = ⟨2, 10, 25, 3⟩ ∧
    (findAll db25 2 10).data.map Event.id =
      ["15", "14", "13", "12", "11", "10", "9", "8", "7", "6"] := by
  refine ⟨rfl, rfl, rfl, (Nat.ceilDiv_eq_add_pred_div _ _).symm, ?_, rfl, ?_, by decide, by decide⟩
  · show ((((List.insertionSort tsDesc db.events).drop ((page - 1) * limit)).take limit).map
      (hydrate db)).length ≤ limit
    rw [List.length_map, List.length_take]
    exact inf_le_left
  · have hs : List.Pairwise tsDesc (List.insertionSort tsDesc db.events) :=
      List.sorted_insertionSort tsDesc db.events
    have hsub : (((List.insertionSort tsDesc db.events).drop ((page - 1) * limit)).take
        limit).Sublist (List.insertionSort tsDesc db.events) :=
      (List.take_sublist _ _).trans (List.drop_sublist _ _)
    exact List.pairwise_map.mpr ((List.Pairwise.sublist hsub hs).imp (fun h => h))

/-- Witness for C5 on the 25-event fixture at page 2, limit 10. -/
theorem C5_findAll_envelope_witness :
    (findAll db25 2 10).pagination.totalPages = db25.events.length ⌈/⌉ 10 :=
  (C5_findAll_envelope db25 2 10 (by decide) (by decide)).2.2.2.1

/-! Claim C8: the spec orders popular tags by descending count with ties
broken by name ascending; the query in the source orders by count only, so
tied tags stay in stored order.  The claim fails on a store whose tied
tags are stored in non-alphabetical order; what holds is the count order
and the limit bound. -/

/-- Lexicographic comparison on character lists. -/
def charListLe : List Char → List Char → Bool
  | [], _ => true
  | _ :: _, [] => false
  | a :: as, b :: bs => if a < b then true else if a = b then charListLe as bs else false

/-- Lexicographic comparison on strings (name ascending order). -/
def nameLe (a b : String) : Bool := charListLe a.data b.data

/-- The ordering claimed by the spec for getPopularTags: count descending,
ties broken by tag name ascending. -/
def popularSpecOrder (l : List (TagRow × Nat)) : Prop :=
  l.Pairwise (fun a b => b.2 < a.2 ∨ (a.2 = b.2 ∧ nameLe a.1.name b.1.name = true))

/-- A store holding two association-free tags stored as name "b" before
name "a". -/
def dbTie : DB :=
  { users := [], tags := [⟨"t1", "b", none, 0⟩, ⟨"t2", "a", none, 0⟩], events := []
    assignments := [], eventTags := [], attachments := [], history := [] }

/-- Counterexample to C8: on `dbTie` both tags have zero associations and
getPopularTags answers them in stored order ("b" before "a"), violating the
name-ascending tie break the claim states. -/
theorem C8_counterexample_tie_order :
    (getPopularTags dbTie 10).map (fun p => p.1.name) = ["b", "a"] ∧
    ¬ popularSpecOrder (getPopularTags dbTie 10) := by
  constructor
  · rfl
  · intro h
    have := List.rel_of_pairwise_cons (by exact h) (List.mem_singleton.mpr rfl)
    revert this
    decide

/-- C8 amended: getPopularTags returns at most limit tags ordered by
descending event-association count; the relative order of tags with equal
counts is the stored table order, not the name order. -/
theorem C8_amended_popular_order (db : DB) (limit : Nat) :
    (getPopularTags db limit).length ≤ limit ∧
    (getPopularTags db limit).Pairwise (fun a b => b.2 ≤ a.2) := by
  constructor
  · rw [getPopularTags, List.length_take]
    exact inf_le_left
  · have hs : List.Pairwise countDesc
        (List.insertionSort countDesc (db.tags.map (fun t => (t, tagEventCount db t)))) :=
      List.sorted_insertionSort countDesc _
    exact List.Pairwise.sublist (List.take_sublist _ _) hs

/-! Claim C10: every event any Event Store operation returns is an image
of formatEvent: assignedUsers, tags and attachments are always present
(possibly empty) arrays, and metadata is the parsed stored JSON when one
was stored and absent when none was. -/

/-- Any member of a hydrated page slice is the hydration of a stored row. -/
theorem mem_page_slice {rows : List EventRow} {db : DB} {page limit : Nat} {e : Event}
    (h : e ∈ (((List.insertionSort tsDesc rows).drop ((page - 1) * limit)).take limit).map
      (hydrate db)) :
    ∃ r ∈ rows, e = hydrate db r := by
  rcases List.mem_map.mp h with ⟨r, hr, rfl⟩
  have h1 : r ∈ List.insertionSort tsDesc rows :=
    List.drop_subset _ _ (List.take_subset _ _ hr)
  exact ⟨r, (List.perm_insertionSort tsDesc rows).mem_iff.mp h1, rfl⟩

/-- C10: hydration always fills the three relationship arrays and parses
the stored metadata column (absent exactly when nothing was stored), and
every event answered by findAll, findById, findByCreator, findByDateRange,
create or update is the hydration of a stored event row. -/
theorem C10_hydrated_outputs :
    (∀ (db : DB) (r : EventRow),
      (hydrate db r).assignedUsers.isSome = true ∧
      (hydrate db r).tags.isSome = true ∧
      (hydrate db r).attachments.isSome = true ∧
      (hydrate db r).metadata = r.metadata.map jsonParse ∧
      ((hydrate db r).metadata = none ↔ r.metadata = none)) ∧
    (∀ (db : DB) (page limit : Nat) (e : Event), e ∈ (findAll db page limit).data →
      ∃ r ∈ db.events, e = hydrate db r) ∧
    (∀ (db : DB) (id : String) (e : Event), findById db id = some e →
      ∃ r ∈ db.events, e = hydrate db r) ∧
    (∀ (db : DB) (cid : String) (page limit : Nat) (e : Event),
      e ∈ (findByCreator db cid page limit).data → ∃ r ∈ db.events, e = hydrate db r) ∧
    (∀ (db : DB) (s t : Int) (page limit : Nat) (e : Event),
      e ∈ (findByDateRange db s t page limit).data → ∃ r ∈ db.events, e = hydrate db r) ∧
    (∀ (db : DB) (req : CreateEventRequest) (cid : String) (now : Int) (nid : String)
        (e : Event), (createEvent db req cid now nid).2 = some e →
      e = hydrate (createEvent db req cid now nid).1 (newEventRow req cid now nid) ∧
      newEventRow req cid now nid ∈ (createEvent db req cid now nid).1.events) ∧
    (∀ (db : DB) (id : String) (req : UpdateEventRequest) (ed : String) (now : Int)
        (e : Event), (updateEvent db id req ed now).2 = some e →
      ∃ r ∈ (updateEvent db id req ed now).1.events,
        e = hydrate (updateEvent db id req ed now).1 r) := by
  refine ⟨?_, ?_, ?_, ?_, ?_, ?_, ?_⟩
  · intro db r
    refine ⟨rfl, rfl, rfl, rfl, ?_⟩
    cases hm : r.metadata <;> simp [hydrate, hm]
  · intro db page limit e he
    exact mem_page_slice he
  · intro db id e he
    cases hf : db.events.find? (fun r => r.id == id) with
    | none => simp [findById, hf] at he
    | some r =>
      refine ⟨r, List.mem_of_find?_eq_some hf, ?_⟩
      rw [findById, hf] at he
      simp only [Option.map_some', Option.some_inj] at he
      exact he.symm
  · intro db cid page limit e he
    rcases mem_page_slice he with ⟨r, hr, rfl⟩
    exact ⟨r, List.mem_of_mem_filter hr, rfl⟩
  · intro db s t page limit e he
    rcases mem_page_slice he with ⟨r, hr, rfl⟩
    exact ⟨r, List.mem_of_mem_filter hr, rfl⟩
  · intro db req cid now nid e he
    by_cases hok : writeRefsOk db req.assignedUserIds req.tagIds
    · constructor
      · simp only [createEvent] at he ⊢
        rw [if_pos hok] at he ⊢
        simp only [Option.some_inj] at he
        exact he.symm
      · simp only [createEvent]
        rw [if_pos hok]
        simp
    · simp only [createEvent] at he
      rw [if_neg hok] at he
      simp at he
  · intro db id req ed now e he
    cases hf : db.events.find? (fun r => r.id == id) with
    | none => simp [updateEvent, hf] at he
    | some old =>
      have hmem : old ∈ db.events := List.mem_of_find?_eq_some hf
      have hid := List.find?_some hf
      by_cases hok : writeRefsOk db req.assignedUserIds req.tagIds
      · refine ⟨applyUpdateFields old req now, ?_, ?_⟩
        · show applyUpdateFields old req now ∈ (updateEvent db id req ed now).1.events
          simp only [updateEvent, hf]
          rw [if_pos hok]
          exact List.mem_map.mpr ⟨old, hmem, by rw [if_pos hid]⟩
        · show e = hydrate (updateEvent db id req ed now).1 (applyUpdateFields old req now)
          simp only [updateEvent, hf] at he ⊢
          rw [if_pos hok] at he ⊢
          simp only [Option.some_inj] at he
          exact he.symm
      · simp only [updateEvent, hf] at he
        rw [if_neg hok] at he
        simp at he

/-- Witness for C10: the hydrated fixture event row carries all three
relationship arrays. -/
theorem C10_hydrated_outputs_witness :
    (hydrate dbW evRow0).assignedUsers.isSome = true ∧
    (hydrate dbW evRow0).tags.isSome = true ∧
    (hydrate dbW evRow0).attachments.isSome = true :=
  ⟨(C10_hydrated_outputs.1 dbW evRow0).1, (C10_hydrated_outputs.1 dbW evRow0).2.1,
   (C10_hydrated_outputs.1 dbW evRow0).2.2.1⟩

/-! Claim C6: idempotence of batch tag creation.  The claim quantifies
over every name list; it fails when a not-yet-stored name occurs twice in
the list, because the two creates of that name race into the unique name
constraint: the call errors and leaves one of the two tags stored.  For
lists whose new names are pairwise distinct the idempotence holds. -/

/-- Every random draw lands in the fixed 10-color palette. -/
theorem getRandomColor_mem_palette (r : Nat) : getRandomColor r ∈ tagPalette := by
  have h : r % 10 < tagPalette.length := Nat.mod_lt _ (by decide)
  rw [getRandomColor, List.getD_eq_getElem tagPalette _ h]
  exact List.getElem_mem h

/-- The create loop succeeds on pairwise-distinct fresh names, appending
one tag per name, in order, with palette colors. -/
theorem createNewTags_ok (ids : Nat → String) (rand : Nat → Nat) (now : Int) :
    ∀ (names : List String) (db : DB) (k : Nat),
      names.Nodup →
      (∀ n ∈ names, ∀ t ∈ db.tags, t.name ≠ n) →
      ∃ ts : List TagRow,
        createNewTags db names ids rand now k = ({ db with tags := db.tags ++ ts }, .ok ts) ∧
        ts.map (fun t => t.name) = names ∧
        ∀ t ∈ ts, ∃ c ∈ tagPalette, t.color = some c := by
  intro names
  induction names with
  | nil =>
    intro db k _ _
    exact ⟨[], by simp [createNewTags], rfl, by simp⟩
  | cons n rest ih =>
    intro db k hnodup hfresh
    have hany : db.tags.any (fun t => t.name == n) = false := by
      rw [List.any_eq_false]
      intro t ht
      simp [hfresh n (by simp) t ht]
    have hfresh2 : ∀ m ∈ rest,
        ∀ t ∈ (db.tags ++ [⟨ids k, n, some (getRandomColor (rand k)), now⟩] : List TagRow),
          t.name ≠ m := by
      intro m hm t ht
      rcases List.mem_append.mp ht with ht2 | ht2
      · exact hfresh m (List.mem_cons_of_mem n hm) t ht2
      · rcases List.mem_singleton.mp ht2 with rfl
        show n ≠ m
        intro hnm
        exact (List.nodup_cons.mp hnodup).1 (hnm ▸ hm)
    obtain ⟨ts, heq, hnames, hcol⟩ :=
      ih { db with tags := db.tags ++ [⟨ids k, n, some (getRandomColor (rand k)), now⟩] }
        (k + 1) hnodup.of_cons hfresh2
    refine ⟨⟨ids k, n, some (getRandomColor (rand k)), now⟩ :: ts, ?_, ?_, ?_⟩
    · simp only [createNewTags, hany, Bool.false_eq_true, if_false, heq]
      simp [List.append_assoc, Except.map]
    · simp [hnames]
    · intro t ht
      rcases List.mem_cons.mp ht with rfl | ht2
      · exact ⟨getRandomColor (rand k), getRandomColor_mem_palette (rand k), rfl⟩
      · exact hcol t ht2

/-- Counterexample to C6: on an empty tag table, batch-creating the list
with the name "x" twice does not return tag ids at all: the call fails on
the unique name constraint, and one of the two created tags stays stored
(a partial creation). -/
theorem C6_counterexample_duplicate_name :
    (createMultiple ⟨[], [], [], [], [], [], []⟩ ["x", "x"]
        (fun k => "id" ++ toString k) (fun _ => 0) 0).2 = Except.error () ∧
    ((createMultiple ⟨[], [], [], [], [], [], []⟩ ["x", "x"]
        (fun k => "id" ++ toString k) (fun _ => 0) 0).1.tags.map (fun t => t.name)) =
      ["x"] :=
  ⟨rfl, rfl⟩

/-- C6 amended: for every name list in which no not-yet-stored name occurs
twice, createMultiple succeeds, returning the stored tags of the already
existing names followed by one newly created tag per new name with a
palette color; and a second call with the same list (under any id or
random supply) returns exactly the same store and the same tag list, so
the same tag ids, creating nothing. -/
theorem C6_amended_idempotent (db : DB) (names : List String)
    (ids ids2 : Nat → String) (rand rand2 : Nat → Nat) (now now2 : Int)
    (hnodup : (newNamesOf db names).Nodup) :
    (∃ nts : List TagRow,
      createMultiple db names ids rand now =
        ({ db with tags := db.tags ++ nts }, .ok (existingTagsOf db names ++ nts)) ∧
      nts.map (fun t => t.name) = newNamesOf db names ∧
      ∀ t ∈ nts, ∃ c ∈ tagPalette, t.color = some c) ∧
    createMultiple (createMultiple db names ids rand now).1 names ids2 rand2 now2 =
      createMultiple db names ids rand now := by
  cases hemp : (newNamesOf db names).isEmpty with
  | true =>
    have hnil : newNamesOf db names = [] := List.isEmpty_iff.mp hemp
    have h1 : createMultiple db names ids rand now = (db, .ok (existingTagsOf db names)) := by
      simp [createMultiple, hemp]
    refine ⟨⟨[], by simp [h1], by simp [hnil], by simp⟩, ?_⟩
    rw [h1]
    show createMultiple db names ids2 rand2 now2 = (db, .ok (existingTagsOf db names))
    simp [createMultiple, hemp]
  | false =>
    have hfresh : ∀ n ∈ newNamesOf db names, ∀ t ∈ db.tags, t.name ≠ n := by
      intro n hn t ht hne
      rcases List.mem_filter.mp hn with ⟨hn1, hn2⟩
      have : t ∈ existingTagsOf db names :=
        List.mem_filter.mpr ⟨ht, by simp [List.elem_iff, hne ▸ hn1]⟩
      have hmem : n ∈ (existingTagsOf db names).map (fun t => t.name) :=
        hne ▸ List.mem_map_of_mem (fun t => t.name) this
      simp [List.elem_iff, hmem] at hn2
    obtain ⟨nts, heq, hnames, hcol⟩ :=
      createNewTags_ok ids rand now (newNamesOf db names) db 0 hnodup hfresh
    have h1 : createMultiple db names ids rand now =
        ({ db with tags := db.tags ++ nts }, .ok (existingTagsOf db names ++ nts)) := by
      simp [createMultiple, hemp, heq, Except.map]
    have hsub : ∀ t ∈ nts, t.name ∈ names := by
      intro t ht
      have : t.name ∈ newNamesOf db names := hnames ▸ List.mem_map_of_mem (fun t => t.name) ht
      exact List.mem_of_mem_filter this
    have hex1 : existingTagsOf { db with tags := db.tags ++ nts } names =
        existingTagsOf db names ++ nts := by
      show (db.tags ++ nts).filter (fun t => names.contains t.name) =
        existingTagsOf db names ++ nts
      rw [List.filter_append]
      congr 1
      rw [List.filter_eq_self]
      intro t ht
      simp [List.elem_iff, hsub t ht]
    have hnew1 : newNamesOf { db with tags := db.tags ++ nts } names = [] := by
      rw [newNamesOf, List.filter_eq_nil_iff]
      intro n hn
      have hor : n ∈ (existingTagsOf db names).map (fun t => t.name) ++ newNamesOf db names := by
        by_cases hcase : n ∈ (existingTagsOf db names).map (fun t => t.name)
        · exact List.mem_append_left _ hcase
        · refine List.mem_append_right _ ?_
          rw [newNamesOf, List.mem_filter]
          exact ⟨hn, by simp [List.elem_iff, hcase]⟩
      rw [hex1, List.map_append, hnames]
      simp [List.elem_iff, hor]
    have h2 : createMultiple { db with tags := db.tags ++ nts } names ids2 rand2 now2 =
        ({ db with tags := db.tags ++ nts }, .ok (existingTagsOf db names ++ nts)) := by
      rw [createMultiple]
      simp only [hnew1, hex1, List.isEmpty_nil, if_true]
    exact ⟨⟨nts, h1, hnames, hcol⟩, by rw [h1, h2]⟩

/-- Witness for C6 on a store holding the tag "a": batch-creating
["a", "b"] twice returns identical results. -/
theorem C6_amended_idempotent_witness :
    createMultiple (createMultiple ⟨[], [⟨"t1", "a", some "#EF4444", 0⟩], [], [], [], [], []⟩
        ["a", "b"] (fun k => "id" ++ toString k) (fun _ => 0) 0).1
      ["a", "b"] (fun k => "nid" ++ toString k) (fun _ => 3) 5 =
    createMultiple ⟨[], [⟨"t1", "a", some "#EF4444", 0⟩], [], [], [], [], []⟩
      ["a", "b"] (fun k => "id" ++ toString k) (fun _ => 0) 0 :=
  (C6_amended_idempotent ⟨[], [⟨"t1", "a", some "#EF4444", 0⟩], [], [], [], [], []⟩
    ["a", "b"] (fun k => "id" ++ toString k) (fun k => "nid" ++ toString k)
    (fun _ => 0) (fun _ => 3) 0 5 (by decide)).2

end Track
